import Mathlib

/-!
Verification of the bounding-box annotation tool (`src/main.cpp`).

Screen coordinates and scale factors are C++ `float`s in the source; they
are embedded as rationals (`ℚ`).  The C++ `(int)` cast truncates toward
zero, embedded as `truncQ`.  Pixel coordinates are `int`, embedded as `ℤ`.
-/

set_option autoImplicit false

namespace BBoxGui

/-- C++ `(int)` cast of a floating value: truncation toward zero. -/
def truncQ (q : ℚ) : ℤ := if 0 ≤ q then ⌊q⌋ else ⌈q⌉

/-- `std::max(lo, std::min(v, hi))`, the clamping pattern used in
`OutputBoundingBox` and `SaveBoundingBoxToCSV`. -/
def clampInt (v lo hi : ℤ) : ℤ := max lo (min v hi)

/-- `enum class ResizeHandle` from `src/main.cpp`. -/
inductive ResizeHandle where
  | None
  | TopLeft
  | TopRight
  | BottomLeft
  | BottomRight
  | Top
  | Bottom
  | Left
  | Right
  deriving DecidableEq, Repr

/-- `struct BoundingBox` from `src/main.cpp`: two corners in screen
coordinates, status flags, and the pixel coordinates kept for CSV reload. -/
structure BoundingBox where
  x1 : ℚ := 0
  y1 : ℚ := 0
  x2 : ℚ := 0
  y2 : ℚ := 0
  isDrawing : Bool := false
  isValid : Bool := false
  isSelected : Bool := false
  loadedFromCSV : Bool := false
  pixelX1 : ℤ := 0
  pixelY1 : ℤ := 0
  pixelX2 : ℤ := 0
  pixelY2 : ℤ := 0
  activeHandle : ResizeHandle := ResizeHandle.None
  deriving DecidableEq, Repr

/-- The geometry fixed by a loaded image and the current frame:
decoded resolution `cols × rows` (`image.cols`, `image.rows`), the
screen position `imagePos` of the displayed image and its displayed
size `imageSize`. -/
structure ImageGeom where
  cols : ℕ
  rows : ℕ
  imagePosX : ℚ
  imagePosY : ℚ
  imageSizeX : ℚ
  imageSizeY : ℚ
  deriving DecidableEq, Repr

/-- The screen-to-pixel conversion shared by `OutputBoundingBox`
(lines 345-358) and `SaveBoundingBoxToCSV` (lines 373-386): min/max
normalization of the corners, linear rescale, `(int)` truncation,
then clamping each value into `[0, cols]` resp. `[0, rows]`.
Returns `(xmin, ymin, xmax, ymax)`.  Float arithmetic is idealized as
exact rationals; `toPixel32` below is the variant with binary32
rounding after every operation. -/
def toPixel (g : ImageGeom) (b : BoundingBox) : ℤ × ℤ × ℤ × ℤ :=
  let scaleX : ℚ := (g.cols : ℚ) / g.imageSizeX
  let scaleY : ℚ := (g.rows : ℚ) / g.imageSizeY
  let xmin := truncQ ((min b.x1 b.x2 - g.imagePosX) * scaleX)
  let ymin := truncQ ((min b.y1 b.y2 - g.imagePosY) * scaleY)
  let xmax := truncQ ((max b.x1 b.x2 - g.imagePosX) * scaleX)
  let ymax := truncQ ((max b.y1 b.y2 - g.imagePosY) * scaleY)
  (clampInt xmin 0 g.cols, clampInt ymin 0 g.rows,
   clampInt xmax 0 g.cols, clampInt ymax 0 g.rows)

lemma truncQ_mono {a b : ℚ} (h : a ≤ b) : truncQ a ≤ truncQ b := by
  unfold truncQ
  split_ifs with ha hb hb
  · exact Int.floor_le_floor h
  · exact absurd (le_trans ha h) hb
  · calc (⌈a⌉ : ℤ) ≤ ⌈(0 : ℚ)⌉ := Int.ceil_le_ceil (le_of_not_le ha)
      _ = 0 := by simp
      _ ≤ ⌊b⌋ := Int.le_floor.mpr (by exact_mod_cast hb)
  · exact Int.ceil_le_ceil h

lemma clampInt_mono {a b lo hi : ℤ} (h : a ≤ b) :
    clampInt a lo hi ≤ clampInt b lo hi := by
  unfold clampInt
  exact max_le_max le_rfl (min_le_min h le_rfl)

lemma clampInt_lower (v lo hi : ℤ) : lo ≤ clampInt v lo hi := le_max_left _ _

lemma clampInt_upper {lo hi : ℤ} (v : ℤ) (h : lo ≤ hi) : clampInt v lo hi ≤ hi :=
  max_le h (min_le_right _ _)

/-- Shared bounds lemma: the four clamped pixel coordinates are inside the
image and ordered, whenever the displayed image size is positive. -/
lemma toPixel_bounds (g : ImageGeom) (b : BoundingBox)
    (hx : 0 < g.imageSizeX) (hy : 0 < g.imageSizeY) :
    0 ≤ (toPixel g b).1 ∧ (toPixel g b).1 ≤ (toPixel g b).2.2.1 ∧
      (toPixel g b).2.2.1 ≤ (g.cols : ℤ) ∧
    0 ≤ (toPixel g b).2.1 ∧ (toPixel g b).2.1 ≤ (toPixel g b).2.2.2 ∧
      (toPixel g b).2.2.2 ≤ (g.rows : ℤ) := by
  have hsx : (0 : ℚ) ≤ (g.cols : ℚ) / g.imageSizeX :=
    div_nonneg (Nat.cast_nonneg _) (le_of_lt hx)
  have hsy : (0 : ℚ) ≤ (g.rows : ℚ) / g.imageSizeY :=
    div_nonneg (Nat.cast_nonneg _) (le_of_lt hy)
  have hxm : (min b.x1 b.x2 - g.imagePosX) * ((g.cols : ℚ) / g.imageSizeX)
      ≤ (max b.x1 b.x2 - g.imagePosX) * ((g.cols : ℚ) / g.imageSizeX) :=
    mul_le_mul_of_nonneg_right (by simp [sub_le_sub_iff_right, min_le_max]) hsx
  have hym : (min b.y1 b.y2 - g.imagePosY) * ((g.rows : ℚ) / g.imageSizeY)
      ≤ (max b.y1 b.y2 - g.imagePosY) * ((g.rows : ℚ) / g.imageSizeY) :=
    mul_le_mul_of_nonneg_right (by simp [sub_le_sub_iff_right, min_le_max]) hsy
  refine ⟨clampInt_lower _ _ _, clampInt_mono (truncQ_mono hxm),
    clampInt_upper _ (by positivity),
    clampInt_lower _ _ _, clampInt_mono (truncQ_mono hym),
    clampInt_upper _ (by positivity)⟩

/-- C1: For every bounding box and every loaded image (displayed with
positive size), the pixel coordinates produced by the conversion used in
`SaveBoundingBoxToCSV` and `OutputBoundingBox` satisfy
`0 ≤ xmin ≤ xmax ≤ cols` and `0 ≤ ymin ≤ ymax ≤ rows`. -/
theorem savedPixel_in_bounds (g : ImageGeom) (b : BoundingBox)
    (hx : 0 < g.imageSizeX) (hy : 0 < g.imageSizeY) :
    0 ≤ (toPixel g b).1 ∧ (toPixel g b).1 ≤ (toPixel g b).2.2.1 ∧
      (toPixel g b).2.2.1 ≤ (g.cols : ℤ) ∧
    0 ≤ (toPixel g b).2.1 ∧ (toPixel g b).2.1 ≤ (toPixel g b).2.2.2 ∧
      (toPixel g b).2.2.2 ≤ (g.rows : ℤ) :=
  toPixel_bounds g b hx hy

/-- Witness for C1 at a concrete geometry and box. -/
theorem savedPixel_in_bounds_witness :
    (0 : ℚ) < 200 ∧ (0 : ℚ) < 100 ∧
    (0 ≤ (toPixel ⟨640, 480, 10, 20, 200, 100⟩ ⟨250, 60, 30, 90, false, true,
        false, false, 0, 0, 0, 0, ResizeHandle.None⟩).1 ∧
      (toPixel ⟨640, 480, 10, 20, 200, 100⟩ ⟨250, 60, 30, 90, false, true,
        false, false, 0, 0, 0, 0, ResizeHandle.None⟩).1 ≤
      (toPixel ⟨640, 480, 10, 20, 200, 100⟩ ⟨250, 60, 30, 90, false, true,
        false, false, 0, 0, 0, 0, ResizeHandle.None⟩).2.2.1 ∧
      (toPixel ⟨640, 480, 10, 20, 200, 100⟩ ⟨250, 60, 30, 90, false, true,
        false, false, 0, 0, 0, 0, ResizeHandle.None⟩).2.2.1 ≤ ((640 : ℕ) : ℤ) ∧
    0 ≤ (toPixel ⟨640, 480, 10, 20, 200, 100⟩ ⟨250, 60, 30, 90, false, true,
        false, false, 0, 0, 0, 0, ResizeHandle.None⟩).2.1 ∧
      (toPixel ⟨640, 480, 10, 20, 200, 100⟩ ⟨250, 60, 30, 90, false, true,
        false, false, 0, 0, 0, 0, ResizeHandle.None⟩).2.1 ≤
      (toPixel ⟨640, 480, 10, 20, 200, 100⟩ ⟨250, 60, 30, 90, false, true,
        false, false, 0, 0, 0, 0, ResizeHandle.None⟩).2.2.2 ∧
      (toPixel ⟨640, 480, 10, 20, 200, 100⟩ ⟨250, 60, 30, 90, false, true,
        false, false, 0, 0, 0, 0, ResizeHandle.None⟩).2.2.2 ≤ ((480 : ℕ) : ℤ)) :=
  ⟨by norm_num, by norm_num,
    savedPixel_in_bounds ⟨640, 480, 10, 20, 200, 100⟩
      ⟨250, 60, 30, 90, false, true, false, false, 0, 0, 0, 0, ResizeHandle.None⟩
      (by norm_num) (by norm_num)⟩

/-- `IsPointInBoundingBox` (lines 409-416): point-in-box hit test after
min/max normalization of the corners. -/
def IsPointInBoundingBox (b : BoundingBox) (px py : ℚ) : Bool :=
  decide (min b.x1 b.x2 ≤ px) && decide (px ≤ max b.x1 b.x2) &&
  decide (min b.y1 b.y2 ≤ py) && decide (py ≤ max b.y1 b.y2)

/-- `GetResizeHandle` (lines 418-452): resolves a point to a resize handle.
Corners use tolerance 12 in both axes and are checked for any valid box;
edge zones use tolerance 6 and are checked only when the box is selected. -/
def GetResizeHandle (b : BoundingBox) (px py : ℚ) : ResizeHandle :=
  if b.isValid = false then ResizeHandle.None else
  let minX := min b.x1 b.x2
  let maxX := max b.x1 b.x2
  let minY := min b.y1 b.y2
  let maxY := max b.y1 b.y2
  let cornerSize : ℚ := 12
  let edgeSize : ℚ := 6
  if |px - minX| ≤ cornerSize ∧ |py - minY| ≤ cornerSize then ResizeHandle.TopLeft
  else if |px - maxX| ≤ cornerSize ∧ |py - minY| ≤ cornerSize then ResizeHandle.TopRight
  else if |px - minX| ≤ cornerSize ∧ |py - maxY| ≤ cornerSize then ResizeHandle.BottomLeft
  else if |px - maxX| ≤ cornerSize ∧ |py - maxY| ≤ cornerSize then ResizeHandle.BottomRight
  else if b.isSelected = true then
    if |py - minY| ≤ edgeSize ∧ minX + cornerSize < px ∧ px < maxX - cornerSize then
      ResizeHandle.Top
    else if |py - maxY| ≤ edgeSize ∧ minX + cornerSize < px ∧ px < maxX - cornerSize then
      ResizeHandle.Bottom
    else if |px - minX| ≤ edgeSize ∧ minY + cornerSize < py ∧ py < maxY - cornerSize then
      ResizeHandle.Left
    else if |px - maxX| ≤ edgeSize ∧ minY + cornerSize < py ∧ py < maxY - cornerSize then
      ResizeHandle.Right
    else ResizeHandle.None
  else ResizeHandle.None

/-- Exchange of the two stored corners `(x1,y1) ↔ (x2,y2)`. -/
def swapCorners (b : BoundingBox) : BoundingBox :=
  { b with x1 := b.x2, y1 := b.y2, x2 := b.x1, y2 := b.y1 }

/-- A valid but unselected box, with corners (100,100) and (300,300). -/
def unselectedBox : BoundingBox :=
  { x1 := 100, y1 := 100, x2 := 300, y2 := 300, isValid := true }

/-- A valid, selected box used as a concrete instance. -/
def selectedBox : BoundingBox :=
  { x1 := 100, y1 := 100, x2 := 300, y2 := 300, isValid := true, isSelected := true }

/-- C2: point-in-box hit-testing, resize-handle hit-testing, and the
pixel conversion used for saving/printing are invariant under exchanging
the two stored corners, because each normalizes via min/max first. -/
theorem corner_swap_invariant (g : ImageGeom) (b : BoundingBox) (px py : ℚ) :
    IsPointInBoundingBox (swapCorners b) px py = IsPointInBoundingBox b px py ∧
    GetResizeHandle (swapCorners b) px py = GetResizeHandle b px py ∧
    toPixel g (swapCorners b) = toPixel g b := by
  refine ⟨?_, ?_, ?_⟩ <;>
    simp [IsPointInBoundingBox, GetResizeHandle, toPixel, swapCorners,
      min_comm, max_comm]

/-- Abstract outcome of the two library probes `LoadImage` performs:
whether `std::ifstream(path)` is good, and whether `cv::imread(path)`
returns an empty image. -/
structure LoadEnv where
  fileGood : Bool
  decodeEmpty : Bool
  deriving DecidableEq, Repr

/-- Control flow of `LoadImage` (lines 67-139): `false` when the file
cannot be opened, `false` when the decode is empty, `true` otherwise
(every later statement is unconditional and the function ends in
`return true`). -/
def loadImageResult (e : LoadEnv) : Bool :=
  if e.fileGood = false then false
  else if e.decodeEmpty = true then false
  else true

/-- C6: `LoadImage` returns false exactly when the file cannot be opened
or the decoder returns an empty image; these are the only failure modes. -/
theorem loadImage_failure_modes (e : LoadEnv) :
    loadImageResult e = false ↔ (e.fileGood = false ∨ e.decodeEmpty = true) := by
  cases e with
  | mk fg de => cases fg <;> cases de <;> simp [loadImageResult]

/-- The pixel-to-screen conversion in `Render` (lines 174-188): when the
box was loaded from CSV and is valid, each screen coordinate becomes
`imagePos + pixel * (imageSize / imageDim)` and the `loadedFromCSV` flag
is cleared; otherwise nothing changes.  Float arithmetic idealized as
exact rationals; `renderFromCSV32` below is the rounding-faithful
variant. -/
def renderFromCSV (g : ImageGeom) (b : BoundingBox) : BoundingBox :=
  if b.loadedFromCSV = true ∧ b.isValid = true then
    let scaleX : ℚ := g.imageSizeX / (g.cols : ℚ)
    let scaleY : ℚ := g.imageSizeY / (g.rows : ℚ)
    { b with
      x1 := g.imagePosX + (b.pixelX1 : ℚ) * scaleX
      y1 := g.imagePosY + (b.pixelY1 : ℚ) * scaleY
      x2 := g.imagePosX + (b.pixelX2 : ℚ) * scaleX
      y2 := g.imagePosY + (b.pixelY2 : ℚ) * scaleY
      loadedFromCSV := false }
  else b

lemma truncQ_intCast (n : ℤ) : truncQ (n : ℚ) = n := by
  unfold truncQ
  split_ifs <;> simp

lemma clampInt_eq_self {v lo hi : ℤ} (h1 : lo ≤ v) (h2 : v ≤ hi) :
    clampInt v lo hi = v := by
  unfold clampInt
  rw [min_eq_left h2, max_eq_right h1]

/-- C3 (amended): with the two conversions computed in exact rational
arithmetic, converting an in-bounds, ordered pixel box to screen
coordinates in `Render` and converting back in `SaveBoundingBoxToCSV`
(truncate and clamp) recovers the original four integers, for every
positive displayed image size.  Under the program's binary32 arithmetic
the roundtrip can instead return a neighboring integer: see the
binary32 development after the witness below. -/
theorem pixel_roundtrip (g : ImageGeom) (b : BoundingBox)
    (hl : b.loadedFromCSV = true) (hv : b.isValid = true)
    (hc : 0 < g.cols) (hr : 0 < g.rows)
    (hsx : 0 < g.imageSizeX) (hsy : 0 < g.imageSizeY)
    (hx0 : 0 ≤ b.pixelX1) (hx12 : b.pixelX1 ≤ b.pixelX2)
    (hx2 : b.pixelX2 ≤ (g.cols : ℤ))
    (hy0 : 0 ≤ b.pixelY1) (hy12 : b.pixelY1 ≤ b.pixelY2)
    (hy2 : b.pixelY2 ≤ (g.rows : ℤ)) :
    toPixel g (renderFromCSV g b) =
      (b.pixelX1, b.pixelY1, b.pixelX2, b.pixelY2) := by
  have hcq : (0 : ℚ) < (g.cols : ℚ) := by exact_mod_cast hc
  have hrq : (0 : ℚ) < (g.rows : ℚ) := by exact_mod_cast hr
  have hsxq : (0 : ℚ) ≤ g.imageSizeX / (g.cols : ℚ) := by positivity
  have hsyq : (0 : ℚ) ≤ g.imageSizeY / (g.rows : ℚ) := by positivity
  have keyX : ∀ p : ℤ,
      (g.imagePosX + (p : ℚ) * (g.imageSizeX / (g.cols : ℚ)) - g.imagePosX) *
        ((g.cols : ℚ) / g.imageSizeX) = (p : ℚ) := by
    intro p
    field_simp
    ring
  have keyY : ∀ p : ℤ,
      (g.imagePosY + (p : ℚ) * (g.imageSizeY / (g.rows : ℚ)) - g.imagePosY) *
        ((g.rows : ℚ) / g.imageSizeY) = (p : ℚ) := by
    intro p
    field_simp
    ring
  have hxle : g.imagePosX + (b.pixelX1 : ℚ) * (g.imageSizeX / (g.cols : ℚ)) ≤
      g.imagePosX + (b.pixelX2 : ℚ) * (g.imageSizeX / (g.cols : ℚ)) :=
    add_le_add_left
      (mul_le_mul_of_nonneg_right (by exact_mod_cast hx12) hsxq) _
  have hyle : g.imagePosY + (b.pixelY1 : ℚ) * (g.imageSizeY / (g.rows : ℚ)) ≤
      g.imagePosY + (b.pixelY2 : ℚ) * (g.imageSizeY / (g.rows : ℚ)) :=
    add_le_add_left
      (mul_le_mul_of_nonneg_right (by exact_mod_cast hy12) hsyq) _
  simp only [renderFromCSV, hl, hv, and_self, if_true, toPixel]
  rw [min_eq_left hxle, max_eq_right hxle, min_eq_left hyle, max_eq_right hyle,
    keyX, keyX, keyY, keyY, truncQ_intCast, truncQ_intCast, truncQ_intCast,
    truncQ_intCast, clampInt_eq_self hx0 (le_trans hx12 hx2),
    clampInt_eq_self hy0 (le_trans hy12 hy2),
    clampInt_eq_self (le_trans hx0 hx12) hx2,
    clampInt_eq_self (le_trans hy0 hy12) hy2]

/-- A pixel box loaded from CSV, inside a 4 × 2 image. -/
def roundtripBox : BoundingBox :=
  { isValid := true, loadedFromCSV := true,
    pixelX1 := 1, pixelY1 := 0, pixelX2 := 3, pixelY2 := 2 }

/-- Geometry of a 4 × 2 image displayed at size 8 × 4 and offset (3, 5). -/
def roundtripGeom : ImageGeom :=
  { cols := 4, rows := 2, imagePosX := 3, imagePosY := 5,
    imageSizeX := 8, imageSizeY := 4 }

/-- Witness for C3 at a concrete geometry and pixel box. -/
theorem pixel_roundtrip_witness :
    roundtripBox.loadedFromCSV = true ∧ roundtripBox.isValid = true ∧
    0 < roundtripGeom.cols ∧ 0 < roundtripGeom.rows ∧
    0 < roundtripGeom.imageSizeX ∧ 0 < roundtripGeom.imageSizeY ∧
    0 ≤ roundtripBox.pixelX1 ∧ roundtripBox.pixelX1 ≤ roundtripBox.pixelX2 ∧
    roundtripBox.pixelX2 ≤ (roundtripGeom.cols : ℤ) ∧
    0 ≤ roundtripBox.pixelY1 ∧ roundtripBox.pixelY1 ≤ roundtripBox.pixelY2 ∧
    roundtripBox.pixelY2 ≤ (roundtripGeom.rows : ℤ) ∧
    toPixel roundtripGeom (renderFromCSV roundtripGeom roundtripBox) =
      (1, 0, 3, 2) :=
  ⟨rfl, rfl, by norm_num [roundtripGeom], by norm_num [roundtripGeom],
   by norm_num [roundtripGeom], by norm_num [roundtripGeom],
   by norm_num [roundtripBox], by norm_num [roundtripBox],
   by norm_num [roundtripBox, roundtripGeom], by norm_num [roundtripBox],
   by norm_num [roundtripBox], by norm_num [roundtripBox, roundtripGeom],
   pixel_roundtrip roundtripGeom roundtripBox rfl rfl
     (by norm_num [roundtripGeom]) (by norm_num [roundtripGeom])
     (by norm_num [roundtripGeom]) (by norm_num [roundtripGeom])
     (by norm_num [roundtripBox]) (by norm_num [roundtripBox])
     (by norm_num [roundtripBox, roundtripGeom]) (by norm_num [roundtripBox])
     (by norm_num [roundtripBox]) (by norm_num [roundtripBox, roundtripGeom])⟩

/-- Round to nearest integer, ties to even (the IEEE-754 default). -/
def roundNearestEven (m : ℚ) : ℤ :=
  let n0 := ⌊m⌋
  if m - (n0 : ℚ) < 1 / 2 then n0
  else if (1 / 2 : ℚ) < m - (n0 : ℚ) then n0 + 1
  else if n0 % 2 = 0 then n0 else n0 + 1

/-- Binary32 rounding of an exact rational value: 24-bit significand,
round to nearest even.  Normal range only; overflow and subnormals do
not occur at the magnitudes the program handles. -/
def fl32 (q : ℚ) : ℚ :=
  if q = 0 then 0
  else
    let e := Int.log 2 |q|
    let n := roundNearestEven (|q| * (2 : ℚ) ^ (23 - e))
    if q < 0 then -((n : ℚ) * (2 : ℚ) ^ (e - 23))
    else (n : ℚ) * (2 : ℚ) ^ (e - 23)

/-- `Render`'s pixel-to-screen conversion (lines 174-188) with every
`float` operation rounded to binary32, as the program computes it:
one rounding for `imageSize / cols`, one for the product, one for the
sum. -/
def renderFromCSV32 (g : ImageGeom) (b : BoundingBox) : BoundingBox :=
  if b.loadedFromCSV = true ∧ b.isValid = true then
    let scaleX := fl32 (g.imageSizeX / (g.cols : ℚ))
    let scaleY := fl32 (g.imageSizeY / (g.rows : ℚ))
    { b with
      x1 := fl32 (g.imagePosX + fl32 ((b.pixelX1 : ℚ) * scaleX))
      y1 := fl32 (g.imagePosY + fl32 ((b.pixelY1 : ℚ) * scaleY))
      x2 := fl32 (g.imagePosX + fl32 ((b.pixelX2 : ℚ) * scaleX))
      y2 := fl32 (g.imagePosY + fl32 ((b.pixelY2 : ℚ) * scaleY))
      loadedFromCSV := false }
  else b

/-- The screen-to-pixel conversion of `SaveBoundingBoxToCSV`
(lines 373-386) with every `float` operation rounded to binary32:
one rounding for `cols / imageSize`, one for the subtraction, one for
the product, then `(int)` truncation and clamping (both exact). -/
def toPixel32 (g : ImageGeom) (b : BoundingBox) : ℤ × ℤ × ℤ × ℤ :=
  let scaleX := fl32 ((g.cols : ℚ) / g.imageSizeX)
  let scaleY := fl32 ((g.rows : ℚ) / g.imageSizeY)
  let xmin := truncQ (fl32 (fl32 (min b.x1 b.x2 - g.imagePosX) * scaleX))
  let ymin := truncQ (fl32 (fl32 (min b.y1 b.y2 - g.imagePosY) * scaleY))
  let xmax := truncQ (fl32 (fl32 (max b.x1 b.x2 - g.imagePosX) * scaleX))
  let ymax := truncQ (fl32 (fl32 (max b.y1 b.y2 - g.imagePosY) * scaleY))
  (clampInt xmin 0 g.cols, clampInt ymin 0 g.rows,
   clampInt xmax 0 g.cols, clampInt ymax 0 g.rows)

/-- A 3 × 3 image displayed at 100 × 100 starting at the origin: the
scale factors 100/3 and 3/100 are not binary32-representable. -/
def floatGeom : ImageGeom :=
  { cols := 3, rows := 3, imagePosX := 0, imagePosY := 0,
    imageSizeX := 100, imageSizeY := 100 }

/-- The in-bounds, ordered pixel box (1, 1, 2, 2) loaded from CSV. -/
def floatBox : BoundingBox :=
  { isValid := true, loadedFromCSV := true,
    pixelX1 := 1, pixelY1 := 1, pixelX2 := 2, pixelY2 := 2 }

lemma Int_log2_eq {q : ℚ} {e : ℤ} (h1 : (2 : ℚ) ^ e ≤ q)
    (h2 : q < (2 : ℚ) ^ (e + 1)) : Int.log 2 q = e := by
  have hq : 0 < q := lt_of_lt_of_le (by positivity) h1
  have hcast : ((2 : ℕ) : ℚ) = (2 : ℚ) := by norm_num
  have ha : e ≤ Int.log 2 q := by
    rw [← Int.zpow_le_iff_le_log (by norm_num) hq, hcast]
    exact h1
  have hb : Int.log 2 q < e + 1 := by
    rw [← Int.lt_zpow_iff_log_lt (by norm_num) hq, hcast]
    exact h2
  omega

lemma roundNearestEven_eq_of_lt {m : ℚ} {k : ℤ} (hfl : ⌊m⌋ = k)
    (h : m - (k : ℚ) < 1 / 2) : roundNearestEven m = k := by
  simp only [roundNearestEven, hfl]
  rw [if_pos h]

lemma roundNearestEven_eq_of_gt {m : ℚ} {k : ℤ} (hfl : ⌊m⌋ = k)
    (h : (1 / 2 : ℚ) < m - (k : ℚ)) : roundNearestEven m = k + 1 := by
  have h2 : ¬(m - (k : ℚ) < 1 / 2) := by linarith
  simp only [roundNearestEven, hfl]
  rw [if_neg h2, if_pos h]

lemma fl32_eval {q : ℚ} {e n : ℤ} (h1 : (2 : ℚ) ^ e ≤ q)
    (h2 : q < (2 : ℚ) ^ (e + 1))
    (hn : roundNearestEven (q * (2 : ℚ) ^ (23 - e)) = n) :
    fl32 q = (n : ℚ) * (2 : ℚ) ^ (e - 23) := by
  have hq : 0 < q := lt_of_lt_of_le (by positivity) h1
  have hlog : Int.log 2 q = e := Int_log2_eq h1 h2
  have h0 : ¬q = 0 := ne_of_gt hq
  have hneg : ¬q < 0 := not_lt.mpr hq.le
  simp only [fl32, h0, if_false, abs_of_pos hq, hlog, hn, hneg]

lemma truncQ_eq_of_floor {q : ℚ} {n : ℤ} (h0 : 0 ≤ q) (hfl : ⌊q⌋ = n) :
    truncQ q = n := by
  simp [truncQ, h0, hfl]

/-- C3 counterexample: with every float operation rounded to binary32 as
the program computes it, the roundtrip does not return the original
integers.  For the 3 × 3 image displayed at 100 × 100 the in-bounds,
ordered pixel box (1, 1, 2, 2) comes back as (0, 0, 1, 1):
fl(100/3) · fl(3/100) = 1 - 2⁻²⁴ < 1, which the `(int)` cast truncates
to 0. -/
theorem pixel_roundtrip_float_counterexample :
    (0 ≤ floatBox.pixelX1 ∧ floatBox.pixelX1 ≤ floatBox.pixelX2 ∧
      floatBox.pixelX2 ≤ (floatGeom.cols : ℤ) ∧
      0 ≤ floatBox.pixelY1 ∧ floatBox.pixelY1 ≤ floatBox.pixelY2 ∧
      floatBox.pixelY2 ≤ (floatGeom.rows : ℤ) ∧
      0 < floatGeom.imageSizeX ∧ 0 < floatGeom.imageSizeY ∧
      floatBox.loadedFromCSV = true ∧ floatBox.isValid = true) ∧
    toPixel32 floatGeom (renderFromCSV32 floatGeom floatBox) = (0, 0, 1, 1) ∧
    ((0, 0, 1, 1) : ℤ × ℤ × ℤ × ℤ) ≠
      (floatBox.pixelX1, floatBox.pixelY1, floatBox.pixelX2, floatBox.pixelY2) := by
  have hA : fl32 ((100 : ℚ) / 3) = 8738133 / 262144 := by
    have h := fl32_eval (q := 100 / 3) (e := 5) (n := 8738133)
      (by norm_num) (by norm_num)
      (roundNearestEven_eq_of_lt (k := 8738133)
        (by rw [Int.floor_eq_iff]; norm_num) (by norm_num))
    rw [h]
    norm_num
  have hS : fl32 ((3 : ℚ) / 100) = 16106127 / 536870912 := by
    have h := fl32_eval (q := 3 / 100) (e := -6) (n := 16106127)
      (by norm_num) (by norm_num)
      (roundNearestEven_eq_of_lt (k := 16106127)
        (by rw [Int.floor_eq_iff]; norm_num) (by norm_num))
    rw [h]
    norm_num
  have hAid : fl32 ((8738133 : ℚ) / 262144) = 8738133 / 262144 := by
    have h := fl32_eval (q := 8738133 / 262144) (e := 5) (n := 8738133)
      (by norm_num) (by norm_num)
      (roundNearestEven_eq_of_lt (k := 8738133)
        (by rw [Int.floor_eq_iff]; norm_num) (by norm_num))
    rw [h]
    norm_num
  have hBid : fl32 ((8738133 : ℚ) / 131072) = 8738133 / 131072 := by
    have h := fl32_eval (q := 8738133 / 131072) (e := 6) (n := 8738133)
      (by norm_num) (by norm_num)
      (roundNearestEven_eq_of_lt (k := 8738133)
        (by rw [Int.floor_eq_iff]; norm_num) (by norm_num))
    rw [h]
    norm_num
  have hP1 : fl32 ((140737479840891 : ℚ) / 140737488355328) =
      16777215 / 16777216 := by
    have h := fl32_eval (q := 140737479840891 / 140737488355328)
      (e := -1) (n := 16777215)
      (by norm_num) (by norm_num)
      (roundNearestEven_eq_of_gt (k := 16777214)
        (by rw [Int.floor_eq_iff]; norm_num) (by norm_num))
    rw [h]
    norm_num
  have hP2 : fl32 ((140737479840891 : ℚ) / 70368744177664) =
      16777215 / 8388608 := by
    have h := fl32_eval (q := 140737479840891 / 70368744177664)
      (e := 0) (n := 16777215)
      (by norm_num) (by norm_num)
      (roundNearestEven_eq_of_gt (k := 16777214)
        (by rw [Int.floor_eq_iff]; norm_num) (by norm_num))
    rw [h]
    norm_num
  refine ⟨by norm_num [floatBox, floatGeom], ?_, by decide⟩
  have hrender : renderFromCSV32 floatGeom floatBox =
      { floatBox with
        x1 := 8738133 / 262144
        y1 := 8738133 / 262144
        x2 := 8738133 / 131072
        y2 := 8738133 / 131072
        loadedFromCSV := false } := by
    simp only [renderFromCSV32, floatBox, floatGeom]
    norm_num [hA, hAid, hBid]
  rw [hrender]
  have hsub1 : ((8738133 : ℚ) / 262144 - 0) = 8738133 / 262144 := by norm_num
  have hsub2 : ((8738133 : ℚ) / 131072 - 0) = 8738133 / 131072 := by norm_num
  have hmin : min ((8738133 : ℚ) / 262144) ((8738133 : ℚ) / 131072) =
      (8738133 : ℚ) / 262144 := by
    rw [min_eq_left]
    norm_num
  have hmax : max ((8738133 : ℚ) / 262144) ((8738133 : ℚ) / 131072) =
      (8738133 : ℚ) / 131072 := by
    rw [max_eq_right]
    norm_num
  have hmul1 : (8738133 : ℚ) / 262144 * (16106127 / 536870912) =
      140737479840891 / 140737488355328 := by norm_num
  have hmul2 : (8738133 : ℚ) / 131072 * (16106127 / 536870912) =
      140737479840891 / 70368744177664 := by norm_num
  have ht1 : truncQ ((16777215 : ℚ) / 16777216) = 0 :=
    truncQ_eq_of_floor (by norm_num) (by rw [Int.floor_eq_iff]; norm_num)
  have ht2 : truncQ ((16777215 : ℚ) / 8388608) = 1 :=
    truncQ_eq_of_floor (by norm_num) (by rw [Int.floor_eq_iff]; norm_num)
  simp only [toPixel32, floatGeom]
  norm_num [hmin, hmax, hsub1, hsub2, hS, hAid, hBid, hmul1, hmul2, hP1, hP2,
    ht1, ht2, clampInt]

/-- The YOLOv5-style values computed in `OutputBoundingBox`
(lines 360-364) from the clamped pixel coordinates:
`(x_center, y_center, width, height)`, each divided by the image
dimension. -/
def yoloValues (g : ImageGeom) (b : BoundingBox) : ℚ × ℚ × ℚ × ℚ :=
  let p := toPixel g b
  ((((p.1 : ℚ) + (p.2.2.1 : ℚ)) / 2) / (g.cols : ℚ),
   (((p.2.1 : ℚ) + (p.2.2.2 : ℚ)) / 2) / (g.rows : ℚ),
   ((p.2.2.1 : ℚ) - (p.1 : ℚ)) / (g.cols : ℚ),
   ((p.2.2.2 : ℚ) - (p.2.1 : ℚ)) / (g.rows : ℚ))

/-- C4: the printed YOLO values are exactly the stated formulas over the
clamped pixel coordinates, and each of the four values lies in `[0, 1]`. -/
theorem yolo_values_normalized (g : ImageGeom) (b : BoundingBox)
    (hc : 0 < g.cols) (hr : 0 < g.rows)
    (hx : 0 < g.imageSizeX) (hy : 0 < g.imageSizeY) :
    yoloValues g b =
      ((((toPixel g b).1 : ℚ) + ((toPixel g b).2.2.1 : ℚ)) / 2 / (g.cols : ℚ),
       (((toPixel g b).2.1 : ℚ) + ((toPixel g b).2.2.2 : ℚ)) / 2 / (g.rows : ℚ),
       (((toPixel g b).2.2.1 : ℚ) - ((toPixel g b).1 : ℚ)) / (g.cols : ℚ),
       (((toPixel g b).2.2.2 : ℚ) - ((toPixel g b).2.1 : ℚ)) / (g.rows : ℚ)) ∧
    (0 ≤ (yoloValues g b).1 ∧ (yoloValues g b).1 ≤ 1) ∧
    (0 ≤ (yoloValues g b).2.1 ∧ (yoloValues g b).2.1 ≤ 1) ∧
    (0 ≤ (yoloValues g b).2.2.1 ∧ (yoloValues g b).2.2.1 ≤ 1) ∧
    (0 ≤ (yoloValues g b).2.2.2 ∧ (yoloValues g b).2.2.2 ≤ 1) := by
  obtain ⟨h1, h2, h3, h4, h5, h6⟩ := toPixel_bounds g b hx hy
  have hcq : (0 : ℚ) < (g.cols : ℚ) := by exact_mod_cast hc
  have hrq : (0 : ℚ) < (g.rows : ℚ) := by exact_mod_cast hr
  have q1 : (0 : ℚ) ≤ ((toPixel g b).1 : ℚ) := by exact_mod_cast h1
  have q2 : ((toPixel g b).1 : ℚ) ≤ ((toPixel g b).2.2.1 : ℚ) := by
    exact_mod_cast h2
  have q3 : ((toPixel g b).2.2.1 : ℚ) ≤ (g.cols : ℚ) := by exact_mod_cast h3
  have q4 : (0 : ℚ) ≤ ((toPixel g b).2.1 : ℚ) := by exact_mod_cast h4
  have q5 : ((toPixel g b).2.1 : ℚ) ≤ ((toPixel g b).2.2.2 : ℚ) := by
    exact_mod_cast h5
  have q6 : ((toPixel g b).2.2.2 : ℚ) ≤ (g.rows : ℚ) := by exact_mod_cast h6
  refine ⟨rfl, ⟨?_, ?_⟩, ⟨?_, ?_⟩, ⟨?_, ?_⟩, ⟨?_, ?_⟩⟩ <;>
    simp only [yoloValues]
  · exact div_nonneg (by linarith) (le_of_lt hcq)
  · rw [div_le_one hcq]
    linarith
  · exact div_nonneg (by linarith) (le_of_lt hrq)
  · rw [div_le_one hrq]
    linarith
  · exact div_nonneg (by linarith) (le_of_lt hcq)
  · rw [div_le_one hcq]
    linarith
  · exact div_nonneg (by linarith) (le_of_lt hrq)
  · rw [div_le_one hrq]
    linarith

/-- Witness for C4 at a concrete geometry and box. -/
theorem yolo_values_normalized_witness :
    0 < roundtripGeom.cols ∧ 0 < roundtripGeom.rows ∧
    0 < roundtripGeom.imageSizeX ∧ 0 < roundtripGeom.imageSizeY ∧
    ((0 ≤ (yoloValues roundtripGeom selectedBox).1 ∧
        (yoloValues roundtripGeom selectedBox).1 ≤ 1) ∧
     (0 ≤ (yoloValues roundtripGeom selectedBox).2.1 ∧
        (yoloValues roundtripGeom selectedBox).2.1 ≤ 1) ∧
     (0 ≤ (yoloValues roundtripGeom selectedBox).2.2.1 ∧
        (yoloValues roundtripGeom selectedBox).2.2.1 ≤ 1) ∧
     (0 ≤ (yoloValues roundtripGeom selectedBox).2.2.2 ∧
        (yoloValues roundtripGeom selectedBox).2.2.2 ≤ 1)) :=
  ⟨by norm_num [roundtripGeom], by norm_num [roundtripGeom],
   by norm_num [roundtripGeom], by norm_num [roundtripGeom],
   (yolo_values_normalized roundtripGeom selectedBox
     (by norm_num [roundtripGeom]) (by norm_num [roundtripGeom])
     (by norm_num [roundtripGeom]) (by norm_num [roundtripGeom])).2⟩

/-- The claim's corner zones: within tolerance 12 of one of the four
corners, in both axes. -/
def NearCorner (b : BoundingBox) (px py : ℚ) : Prop :=
  let minX := min b.x1 b.x2
  let maxX := max b.x1 b.x2
  let minY := min b.y1 b.y2
  let maxY := max b.y1 b.y2
  (|px - minX| ≤ 12 ∧ |py - minY| ≤ 12) ∨ (|px - maxX| ≤ 12 ∧ |py - minY| ≤ 12) ∨
  (|px - minX| ≤ 12 ∧ |py - maxY| ≤ 12) ∨ (|px - maxX| ≤ 12 ∧ |py - maxY| ≤ 12)

/-- The claim's edge zones: within tolerance 6 of one of the four edges,
strictly between the corner zones. -/
def NearEdge (b : BoundingBox) (px py : ℚ) : Prop :=
  let minX := min b.x1 b.x2
  let maxX := max b.x1 b.x2
  let minY := min b.y1 b.y2
  let maxY := max b.y1 b.y2
  (|py - minY| ≤ 6 ∧ minX + 12 < px ∧ px < maxX - 12) ∨
  (|py - maxY| ≤ 6 ∧ minX + 12 < px ∧ px < maxX - 12) ∨
  (|px - minX| ≤ 6 ∧ minY + 12 < py ∧ py < maxY - 12) ∨
  (|px - maxX| ≤ 6 ∧ minY + 12 < py ∧ py < maxY - 12)

/-- C7 counterexample: for a valid but unselected box the code still
returns a (corner) handle — the claim's "for an unselected box no handle
is returned" is false at the box's own corner. -/
theorem resizeHandle_unselected_counterexample :
    GetResizeHandle unselectedBox 100 100 ≠ ResizeHandle.None := by
  unfold GetResizeHandle unselectedBox
  norm_num
  decide

/-- C7 (amended): for a valid selected box, `GetResizeHandle` returns a
non-None handle exactly when the point is within the corner tolerance
(12 px in both axes) of one of the four corners or within the edge
tolerance (6 px) of one of the four edges strictly between the corner
zones; for a valid unselected box, exactly when the point is within the
corner tolerance of a corner (edge zones are not tested). -/
theorem resizeHandle_hit_zones (b : BoundingBox) (px py : ℚ)
    (hv : b.isValid = true) :
    (b.isSelected = true →
      (GetResizeHandle b px py ≠ ResizeHandle.None ↔
        NearCorner b px py ∨ NearEdge b px py)) ∧
    (b.isSelected = false →
      (GetResizeHandle b px py ≠ ResizeHandle.None ↔ NearCorner b px py)) := by
  constructor <;> intro hs <;>
    simp only [GetResizeHandle, NearCorner, NearEdge, hv, hs, Bool.true_eq_false,
      Bool.false_eq_true, if_false, if_true] <;>
    split_ifs <;> simp_all

/-- Witness for C7 at a concrete selected box and point. -/
theorem resizeHandle_hit_zones_witness :
    selectedBox.isValid = true ∧
    ((selectedBox.isSelected = true →
      (GetResizeHandle selectedBox 200 95 ≠ ResizeHandle.None ↔
        NearCorner selectedBox 200 95 ∨ NearEdge selectedBox 200 95)) ∧
     (selectedBox.isSelected = false →
      (GetResizeHandle selectedBox 200 95 ≠ ResizeHandle.None ↔
        NearCorner selectedBox 200 95))) :=
  ⟨rfl, resizeHandle_hit_zones selectedBox 200 95 rfl⟩

/-- Everything strictly before the last `'.'` of the list, or `none` when
no dot occurs: the `find_last_of('.')` / `substr(0, lastDot)` pair used to
derive the companion CSV path. -/
def stripAfterLastDot : List Char → Option (List Char)
  | [] => none
  | c :: cs =>
    match stripAfterLastDot cs with
    | some r => some (c :: r)
    | none => if c = '.' then some [] else none

/-- The companion CSV path (lines 388-395 and 702-709): truncate at the
last dot and append `.csv`, or append `.csv` when the path has no dot. -/
def csvPathOf (p : List Char) : List Char :=
  match stripAfterLastDot p with
  | some stem => stem ++ ".csv".data
  | none => p ++ ".csv".data

/-- A file system mapping a path to the list of lines of the file, or
`none` when the file does not exist / cannot be opened. -/
def FileSys : Type := List Char → Option (List (List Char))

/-- `std::ofstream` default (truncating) open followed by writing `ls`:
the previous content at `path` is discarded entirely. -/
def writeLines (fs : FileSys) (path : List Char) (ls : List (List Char)) : FileSys :=
  fun q => if q = path then some ls else fs q

def intChars (n : ℤ) : List Char := (toString n).data

def csvHeader : List Char := "x_min,y_min,x_max,y_max".data

/-- The single data row `xmin,ymin,xmax,ymax`. -/
def csvRow (xmin ymin xmax ymax : ℤ) : List Char :=
  intChars xmin ++ [','] ++ intChars ymin ++ [','] ++
    intChars xmax ++ [','] ++ intChars ymax

/-- `SaveBoundingBoxToCSV` (lines 370-407): no effect without a valid box
and a non-empty image path; otherwise convert to pixel coordinates and
overwrite the companion CSV file with the header line and one data row. -/
def saveBoundingBoxToCSV (g : ImageGeom) (b : BoundingBox)
    (imagePath : List Char) (fs : FileSys) : FileSys :=
  if b.isValid = false ∨ imagePath = [] then fs
  else
    let p := toPixel g b
    writeLines fs (csvPathOf imagePath) [csvHeader, csvRow p.1 p.2.1 p.2.2.1 p.2.2.2]

lemma stripAfterLastDot_of_not_mem {p : List Char} (h : '.' ∉ p) :
    stripAfterLastDot p = none := by
  induction p with
  | nil => rfl
  | cons c cs ih =>
    simp only [List.mem_cons, not_or] at h
    have hc : ¬c = '.' := fun hcc => h.1 hcc.symm
    simp [stripAfterLastDot, ih h.2, hc]

lemma stripAfterLastDot_append {stem suffix : List Char} (h : '.' ∉ suffix) :
    stripAfterLastDot (stem ++ '.' :: suffix) = some stem := by
  induction stem with
  | nil => simp [stripAfterLastDot, stripAfterLastDot_of_not_mem h]
  | cons c cs ih => simp [stripAfterLastDot, ih]

/-- C5: with a valid box and a non-empty image path, the save writes to
the companion path (everything before the last dot plus `.csv`, or the
path plus `.csv` when it has no dot) exactly the header line and one data
row, discarding any previous content at that path, and leaves every other
file untouched. -/
theorem saveCSV_two_lines_overwrite (g : ImageGeom) (b : BoundingBox)
    (imagePath : List Char) (fs : FileSys)
    (hv : b.isValid = true) (hp : imagePath ≠ []) :
    saveBoundingBoxToCSV g b imagePath fs (csvPathOf imagePath) =
      some [csvHeader,
        csvRow (toPixel g b).1 (toPixel g b).2.1 (toPixel g b).2.2.1
          (toPixel g b).2.2.2] ∧
    (∀ q, q ≠ csvPathOf imagePath →
      saveBoundingBoxToCSV g b imagePath fs q = fs q) ∧
    ('.' ∉ imagePath → csvPathOf imagePath = imagePath ++ ".csv".data) ∧
    (∀ stem suffix, imagePath = stem ++ '.' :: suffix → '.' ∉ suffix →
      csvPathOf imagePath = stem ++ ".csv".data) := by
  refine ⟨?_, ?_, ?_, ?_⟩
  · simp [saveBoundingBoxToCSV, writeLines, hv, hp]
  · intro q hq
    simp [saveBoundingBoxToCSV, writeLines, hv, hp, hq]
  · intro hd
    simp [csvPathOf, stripAfterLastDot_of_not_mem hd]
  · intro stem suffix hps hd
    simp [csvPathOf, hps, stripAfterLastDot_append hd]

/-- Witness for C5: saving over a file system that already holds stale
content at the companion path replaces it with exactly the two lines. -/
theorem saveCSV_two_lines_overwrite_witness :
    selectedBox.isValid = true ∧ "photo.png".data ≠ [] ∧
    saveBoundingBoxToCSV roundtripGeom selectedBox "photo.png".data
      (fun _ => some ["stale".data]) (csvPathOf "photo.png".data) =
      some [csvHeader, csvRow 4 2 4 2] := by
  refine ⟨rfl, by decide, ?_⟩
  rw [(saveCSV_two_lines_overwrite roundtripGeom selectedBox "photo.png".data
    (fun _ => some ["stale".data]) rfl (by decide)).1]
  norm_num [toPixel, truncQ, clampInt, selectedBox, roundtripGeom]

/-- `NavigateNext` (lines 209-217): nothing happens when the scanned file
list is empty or the current index is the `-1` sentinel; otherwise the
file at index `(i + 1) % n` is loaded.  Returns the loaded file, `none`
when nothing changes. -/
def navigateNext (files : List (List Char)) (i : ℤ) : Option (List Char) :=
  if files = [] ∨ i = -1 then none
  else files.get? ((i + 1) % (files.length : ℤ)).toNat

/-- `NavigatePrevious` (lines 219-227): as `NavigateNext`, with index
`(i - 1 + n) % n`. -/
def navigatePrevious (files : List (List Char)) (i : ℤ) : Option (List Char) :=
  if files = [] ∨ i = -1 then none
  else files.get? ((i - 1 + (files.length : ℤ)) % (files.length : ℤ)).toNat

/-- C8: directory navigation is cyclic over the scanned file list: for a
known index `0 ≤ i < n` the next/previous operations load the files at
`(i+1) % n` and `(i-1+n) % n` (the last image wraps to the first and vice
versa), and with an empty list or the `-1` sentinel nothing is loaded. -/
theorem navigation_cyclic (files : List (List Char)) (i : ℤ)
    (hi0 : 0 ≤ i) (hin : i < (files.length : ℤ)) :
    navigateNext files i = files.get? ((i + 1) % (files.length : ℤ)).toNat ∧
    navigatePrevious files i =
      files.get? ((i - 1 + (files.length : ℤ)) % (files.length : ℤ)).toNat ∧
    (i = (files.length : ℤ) - 1 → navigateNext files i = files.get? 0) ∧
    (i = 0 → navigatePrevious files i = files.get? (files.length - 1)) ∧
    navigateNext [] i = none ∧ navigatePrevious [] i = none ∧
    navigateNext files (-1) = none ∧ navigatePrevious files (-1) = none := by
  have hne : files ≠ [] := by
    intro h
    rw [h] at hin
    simp at hin
    omega
  have him : i ≠ -1 := by omega
  have hn : (0 : ℤ) < (files.length : ℤ) := by omega
  refine ⟨?_, ?_, ?_, ?_, ?_, ?_, ?_, ?_⟩
  · simp [navigateNext, hne, him]
  · simp [navigatePrevious, hne, him]
  · intro hlast
    have : (i + 1) % (files.length : ℤ) = 0 := by
      rw [hlast]
      simp
    simp [navigateNext, hne, him, this]
  · intro h0
    have hmod : (i - 1 + (files.length : ℤ)) % (files.length : ℤ) =
        (files.length : ℤ) - 1 := by
      rw [h0]
      rw [Int.emod_eq_of_lt (by omega) (by omega)]
      ring
    have htn : ((files.length : ℤ) - 1).toNat = files.length - 1 := by omega
    simp [navigatePrevious, hne, him, hmod, htn]
  · simp [navigateNext]
  · simp [navigatePrevious]
  · simp [navigateNext]
  · simp [navigatePrevious]

/-- Witness for C8 on a three-file list at the last index. -/
theorem navigation_cyclic_witness :
    (0 : ℤ) ≤ 2 ∧ (2 : ℤ) < (([['a'], ['b'], ['c']] : List (List Char)).length : ℤ) ∧
    navigateNext [['a'], ['b'], ['c']] 2 = some ['a'] ∧
    navigatePrevious [['a'], ['b'], ['c']] 2 = some ['b'] := by
  have h := navigation_cyclic [['a'], ['b'], ['c']] 2 (by norm_num) (by norm_num)
  refine ⟨by norm_num, by norm_num, ?_, ?_⟩
  · rw [h.1]
    norm_num
  · rw [h.2.1]
    norm_num

/-- `ResizeBoundingBox` (lines 454-487): move the corner or edge held by
the active handle; flags are untouched. -/
def resizeBoundingBox (mx my : ℚ) (b : BoundingBox) : BoundingBox :=
  match b.activeHandle with
  | ResizeHandle.TopLeft => { b with x1 := mx, y1 := my }
  | ResizeHandle.TopRight => { b with x2 := mx, y1 := my }
  | ResizeHandle.BottomLeft => { b with x1 := mx, y2 := my }
  | ResizeHandle.BottomRight => { b with x2 := mx, y2 := my }
  | ResizeHandle.Top => { b with y1 := my }
  | ResizeHandle.Bottom => { b with y2 := my }
  | ResizeHandle.Left => { b with x1 := mx }
  | ResizeHandle.Right => { b with x2 := mx }
  | ResizeHandle.None => b

/-- The mutation performed when a CSV row is accepted
(lines 776-785): store the pixel coordinates and mark the box valid,
unselected, not drawing and loaded-from-CSV. -/
def csvLoadSet (xmin ymin xmax ymax : ℤ) (b : BoundingBox) : BoundingBox :=
  { b with
    pixelX1 := xmin
    pixelY1 := ymin
    pixelX2 := xmax
    pixelY2 := ymax
    isValid := true
    isSelected := false
    isDrawing := false
    loadedFromCSV := true
    activeHandle := ResizeHandle.None }

/-- The start-drawing block of `HandleMouseInput` (lines 258-266). -/
def startNewBox (mx my : ℚ) (b : BoundingBox) : BoundingBox :=
  { b with
    x1 := mx
    y1 := my
    x2 := mx
    y2 := my
    isDrawing := true
    isValid := false
    isSelected := false
    activeHandle := ResizeHandle.None }

/-- The left-click branch of `HandleMouseInput` over the image
(lines 241-267): grab a resize handle, else select when inside the box,
else start drawing a new box. -/
def mouseClick (mx my : ℚ) (b : BoundingBox) : BoundingBox :=
  if b.isValid = true then
    if GetResizeHandle b mx my ≠ ResizeHandle.None then
      { b with activeHandle := GetResizeHandle b mx my, isSelected := true }
    else if IsPointInBoundingBox b mx my = true then
      { b with isSelected := true }
    else startNewBox mx my b
  else startNewBox mx my b

/-- The drag branch of `HandleMouseInput` (lines 269-278): extend the box
being drawn, then resize through the active handle. -/
def mouseDrag (mx my : ℚ) (b : BoundingBox) : BoundingBox :=
  let b1 := if b.isDrawing = true then { b with x2 := mx, y2 := my } else b
  if b1.activeHandle ≠ ResizeHandle.None then resizeBoundingBox mx my b1 else b1

/-- The release branch of `HandleMouseInput` (lines 280-298): finish the
box being drawn (clearing `isDrawing`, setting `isValid`), then drop the
active handle. -/
def mouseRelease (mx my : ℚ) (b : BoundingBox) : BoundingBox :=
  let b1 := if b.isDrawing = true then
      { b with
        x2 := mx
        y2 := my
        isDrawing := false
        isValid := true
        isSelected := true }
    else b
  if b1.activeHandle ≠ ResizeHandle.None then
    { b1 with activeHandle := ResizeHandle.None }
  else b1

/-- Click outside the image (lines 299-304): deselect only. -/
def clickOutside (b : BoundingBox) : BoundingBox :=
  { b with isSelected := false }

/-- The default-constructed `BoundingBox()` used to reset on navigation
(lines 215, 225); both flags start false. -/
def initialBox : BoundingBox := {}

/-- The bounding-box mutations of the event loop. -/
inductive BoxEvent where
  | click (mx my : ℚ)
  | drag (mx my : ℚ)
  | release (mx my : ℚ)
  | clickOutside
  | navReset
  | csvLoad (xmin ymin xmax ymax : ℤ)

/-- One bounding-box mutation step. -/
def stepBox : BoxEvent → BoundingBox → BoundingBox
  | BoxEvent.click mx my, b => mouseClick mx my b
  | BoxEvent.drag mx my, b => mouseDrag mx my b
  | BoxEvent.release mx my, b => mouseRelease mx my b
  | BoxEvent.clickOutside, b => clickOutside b
  | BoxEvent.navReset, _ => initialBox
  | BoxEvent.csvLoad xmin ymin xmax ymax, b => csvLoadSet xmin ymin xmax ymax b

lemma resizeBoundingBox_flags (mx my : ℚ) (b : BoundingBox) :
    (resizeBoundingBox mx my b).isDrawing = b.isDrawing ∧
    (resizeBoundingBox mx my b).isValid = b.isValid := by
  cases hb : b.activeHandle <;> simp [resizeBoundingBox, hb]

/-- C9: `isDrawing` and `isValid` are never both true: the initial state
has both false, and every mutation of the event loop preserves the
exclusion. -/
theorem flags_mutually_exclusive (e : BoxEvent) (b : BoundingBox)
    (h : ¬(b.isDrawing = true ∧ b.isValid = true)) :
    ¬((stepBox e b).isDrawing = true ∧ (stepBox e b).isValid = true) ∧
    ¬(initialBox.isDrawing = true ∧ initialBox.isValid = true) := by
  refine ⟨?_, by simp [initialBox]⟩
  cases e with
  | click mx my =>
    simp only [stepBox, mouseClick]
    split_ifs <;> simp_all [startNewBox]
  | drag mx my =>
    simp only [stepBox, mouseDrag]
    split_ifs <;>
      simp_all [resizeBoundingBox_flags]
  | release mx my =>
    simp only [stepBox, mouseRelease]
    split_ifs <;> simp_all
  | clickOutside => simp_all [stepBox, clickOutside]
  | navReset => simp [stepBox, initialBox]
  | csvLoad xmin ymin xmax ymax => simp [stepBox, csvLoadSet]

/-- Witness for C9: one step from a drawing box. -/
theorem flags_mutually_exclusive_witness :
    ¬((startNewBox 1 2 initialBox).isDrawing = true ∧
        (startNewBox 1 2 initialBox).isValid = true) ∧
    ¬((stepBox (BoxEvent.release 5 6) (startNewBox 1 2 initialBox)).isDrawing = true ∧
        (stepBox (BoxEvent.release 5 6) (startNewBox 1 2 initialBox)).isValid = true) :=
  ⟨by simp [startNewBox, initialBox],
   (flags_mutually_exclusive (BoxEvent.release 5 6) (startNewBox 1 2 initialBox)
     (by simp [startNewBox, initialBox])).1⟩

/-- `std::getline(ss, token, ',')` tokenization, by fuel on the remaining
length: the empty stream yields no token, and a trailing delimiter does
not produce a final empty token. -/
def cppTokensAux : ℕ → List Char → List (List Char)
  | _, [] => []
  | 0, _ :: _ => []
  | fuel + 1, s =>
    let t := s.takeWhile (fun c => ¬c = ',')
    match s.drop t.length with
    | [] => [t]
    | _ :: rs => t :: cppTokensAux fuel rs

/-- The comma-separated tokens of one CSV line (lines 756-762). -/
def cppTokens (s : List Char) : List (List Char) := cppTokensAux s.length s

/-- The leading decimal-digit run of `s` as a number, or `none` when `s`
does not start with a digit. -/
def natPrefix (s : List Char) : Option ℕ :=
  let ds := s.takeWhile Char.isDigit
  if ds = [] then none
  else some (ds.foldl (fun acc c => 10 * acc + (c.toNat - '0'.toNat)) 0)

/-- Whitespace in the default locale, as `std::isspace` sees it. -/
def isSpaceChar (c : Char) : Bool :=
  c = ' ' ∨ c = '\t' ∨ c = '\n' ∨ c = '\x0b' ∨ c = '\x0c' ∨ c = '\r'

/-- `std::stoi`: skip leading whitespace, take an optional sign and a
non-empty digit run (trailing junk is ignored); `none` models both the
`std::invalid_argument` exception of a token with no digits to parse and
the `std::out_of_range` exception of a value outside `int` range
(below INT_MIN = -2147483648 or above INT_MAX = 2147483647). -/
def stoiQ (s : List Char) : Option ℤ :=
  let v : Option ℤ :=
    match s.dropWhile isSpaceChar with
    | '-' :: rest => (natPrefix rest).map (fun n => -(n : ℤ))
    | '+' :: rest => (natPrefix rest).map (fun n => (n : ℤ))
    | rest => (natPrefix rest).map (fun n => (n : ℤ))
  match v with
  | none => none
  | some n => if n < -2147483648 ∨ 2147483647 < n then none else some n

/-- One loop body of `LoadBoundingBoxFromCSV` (lines 755-794): the line
yields a box exactly when it splits into at least 4 tokens whose first
four all parse under `std::stoi`. -/
def lineData (l : List Char) : Option (ℤ × ℤ × ℤ × ℤ) :=
  match cppTokens l with
  | t0 :: t1 :: t2 :: t3 :: _ =>
    match stoiQ t0, stoiQ t1, stoiQ t2, stoiQ t3 with
    | some a, some b, some c, some d => some (a, b, c, d)
    | _, _, _, _ => none
  | _ => none

/-- First line that parses; later lines are never reached (the loop
breaks at the first success, line 790). -/
def firstBoxRow : List (List Char) → Option (ℤ × ℤ × ℤ × ℤ)
  | [] => none
  | l :: ls =>
    match lineData l with
    | some v => some v
    | none => firstBoxRow ls

/-- Header detection (lines 737-753): the first line is skipped exactly
when it contains an alphabetic character. -/
def isHeaderLine (l : List Char) : Bool := l.any Char.isAlpha

/-- The row selected from the whole file content. -/
def csvFileRows (lines : List (List Char)) : Option (ℤ × ℤ × ℤ × ℤ) :=
  match lines with
  | [] => none
  | l :: ls => if isHeaderLine l then firstBoxRow ls else firstBoxRow (l :: ls)

/-- `LoadBoundingBoxFromCSV` (lines 696-798): no effect when the image
path is empty, the companion CSV file is missing/unopenable, or no line
parses; otherwise the first parsed row is stored through `csvLoadSet`. -/
def loadBoundingBoxFromCSV (imagePath : List Char) (fs : FileSys)
    (b : BoundingBox) : BoundingBox :=
  if imagePath = [] then b
  else
    match fs (csvPathOf imagePath) with
    | none => b
    | some lines =>
      match csvFileRows lines with
      | none => b
      | some (xmin, ymin, xmax, ymax) => csvLoadSet xmin ymin xmax ymax b

lemma firstBoxRow_eq_none {ls : List (List Char)} :
    firstBoxRow ls = none ↔ ∀ l ∈ ls, lineData l = none := by
  induction ls with
  | nil => simp [firstBoxRow]
  | cons l ls ih =>
    cases hl : lineData l <;> simp [firstBoxRow, hl, ih]

lemma firstBoxRow_append {pre post : List (List Char)} {l : List Char}
    {v : ℤ × ℤ × ℤ × ℤ} (hpre : ∀ l2 ∈ pre, lineData l2 = none)
    (hl : lineData l = some v) :
    firstBoxRow (pre ++ l :: post) = some v := by
  induction pre with
  | nil => simp [firstBoxRow, hl]
  | cons p ps ih =>
    have hp : lineData p = none := hpre p (by simp)
    simp only [List.cons_append, firstBoxRow, hp]
    exact ih (fun l2 h2 => hpre l2 (by simp [h2]))

/-- C10: `LoadBoundingBoxFromCSV` is atomic on failure and uses only the
first parsable row: empty path, missing file, or no parsable line leave
the box unchanged; otherwise the first line with at least four
comma-separated tokens whose first four parse as integers sets the pixel
coordinates and flags, and all lines after it are ignored. -/
theorem loadCSV_atomic_first_row (imagePath : List Char) (fs : FileSys)
    (b : BoundingBox) (lines : List (List Char))
    (hsome : fs (csvPathOf imagePath) = some lines) :
    (imagePath = [] → loadBoundingBoxFromCSV imagePath fs b = b) ∧
    (∀ fs2 : FileSys, fs2 (csvPathOf imagePath) = none →
      loadBoundingBoxFromCSV imagePath fs2 b = b) ∧
    (csvFileRows lines = none → loadBoundingBoxFromCSV imagePath fs b = b) ∧
    (∀ v, csvFileRows lines = some v → imagePath ≠ [] →
      loadBoundingBoxFromCSV imagePath fs b =
        csvLoadSet v.1 v.2.1 v.2.2.1 v.2.2.2 b) ∧
    (∀ ls, firstBoxRow ls = none ↔ ∀ l ∈ ls, lineData l = none) ∧
    (∀ pre post l v, (∀ l2 ∈ pre, lineData l2 = none) → lineData l = some v →
      firstBoxRow (pre ++ l :: post) = some v) ∧
    (∀ xmin ymin xmax ymax : ℤ,
      (csvLoadSet xmin ymin xmax ymax b).pixelX1 = xmin ∧
      (csvLoadSet xmin ymin xmax ymax b).pixelY1 = ymin ∧
      (csvLoadSet xmin ymin xmax ymax b).pixelX2 = xmax ∧
      (csvLoadSet xmin ymin xmax ymax b).pixelY2 = ymax ∧
      (csvLoadSet xmin ymin xmax ymax b).isValid = true ∧
      (csvLoadSet xmin ymin xmax ymax b).isSelected = false ∧
      (csvLoadSet xmin ymin xmax ymax b).isDrawing = false ∧
      (csvLoadSet xmin ymin xmax ymax b).loadedFromCSV = true ∧
      (csvLoadSet xmin ymin xmax ymax b).x1 = b.x1 ∧
      (csvLoadSet xmin ymin xmax ymax b).y1 = b.y1 ∧
      (csvLoadSet xmin ymin xmax ymax b).x2 = b.x2 ∧
      (csvLoadSet xmin ymin xmax ymax b).y2 = b.y2) := by
  refine ⟨?_, ?_, ?_, ?_, ?_, ?_, ?_⟩
  · intro hp
    simp [loadBoundingBoxFromCSV, hp]
  · intro fs2 hnone
    by_cases hp : imagePath = [] <;>
      simp [loadBoundingBoxFromCSV, hp, hnone]
  · intro hrows
    by_cases hp : imagePath = [] <;>
      simp [loadBoundingBoxFromCSV, hp, hsome, hrows]
  · intro v hrows hp
    simp [loadBoundingBoxFromCSV, hp, hsome, hrows]
  · intro ls
    exact firstBoxRow_eq_none
  · intro pre post l v hpre hl
    exact firstBoxRow_append hpre hl
  · intro xmin ymin xmax ymax
    simp [csvLoadSet]

/-- Witness for C10: a file with a header, one short line, one line whose
first token exceeds `int` range (skipped, as `std::stoi` throws
`std::out_of_range` there), a first data row, and a second (ignored)
data row. -/
theorem loadCSV_atomic_first_row_witness :
    (fun _ : List Char =>
        some ["x_min,y_min,x_max,y_max".data, "7,8".data,
          "3000000000,1,2,3".data, "1,2,3,4".data, "9,9,9,9".data])
        (csvPathOf "photo.png".data) =
      some ["x_min,y_min,x_max,y_max".data, "7,8".data,
        "3000000000,1,2,3".data, "1,2,3,4".data, "9,9,9,9".data] ∧
    loadBoundingBoxFromCSV "photo.png".data
      (fun _ => some ["x_min,y_min,x_max,y_max".data, "7,8".data,
        "3000000000,1,2,3".data, "1,2,3,4".data, "9,9,9,9".data]) initialBox =
      csvLoadSet 1 2 3 4 initialBox := by
  refine ⟨rfl, ?_⟩
  have h := (loadCSV_atomic_first_row "photo.png".data
    (fun _ => some ["x_min,y_min,x_max,y_max".data, "7,8".data,
      "3000000000,1,2,3".data, "1,2,3,4".data, "9,9,9,9".data]) initialBox
    ["x_min,y_min,x_max,y_max".data, "7,8".data, "3000000000,1,2,3".data,
      "1,2,3,4".data, "9,9,9,9".data] rfl).2.2.2.1 (1, 2, 3, 4)
    (by decide) (by decide)
  exact h

end BBoxGui
